import Mathlib

/-!
Verification of the HTTP/1 codec (`actix-http/src/h1/codec.rs`) and the HTTP
service wiring (`actix-http/src/service.rs`) of this repository.

The codec is embedded shallowly: the inner `MessageDecoder` and
`MessageEncoder` are stateful collaborators whose code is not part of the two
source files, so `Codec.decode` and `Codec.encode` are parametrised by a
decoder step function and by a record of encoder operations, exactly mirroring
how `codec.rs` delegates to `self.decoder.decode` and `self.encoder.encode` /
`encode_chunk` / `encode_eof`.  A concrete head parser and chunked payload
decoder, modelled from the specification, are provided further below for the
end-to-end scenario.
-/

/-- Byte buffers (`BytesMut`) are modelled as lists of characters; all wire
data in the verified scenarios is ASCII. -/
abbrev Buf : Type := List Char

/-- `ConnectionType` (crate::message): connection disposition of a request or
response. -/
inductive ConnectionType where
  | KeepAlive
  | Close
  | Upgrade
deriving DecidableEq, Repr

/-- `http::Version`.  The codec only ever stores versions produced by the
HTTP/1 decoder, but the type has the variants of the `http` crate. -/
inductive Version where
  | HTTP09
  | HTTP10
  | HTTP11
  | HTTP2
  | HTTP3
deriving DecidableEq, Repr

/-- `http::Method`, with the named methods relevant to the spec; unknown
methods are accepted as extension tokens (spec section 4.1). -/
inductive Method where
  | GET
  | HEAD
  | POST
  | PUT
  | DELETE
  | CONNECT
  | OPTIONS
  | other (tok : List Char)
deriving DecidableEq, Repr

/-- Modelled from the spec: `KeepAlive` (crate::config) is not under src/.
Spec section 6: keep-alive mode is `Disabled | Timeout(seconds) | OS`. -/
inductive KeepAliveMode where
  | Disabled
  | Timeout (secs : Nat)
  | Os
deriving DecidableEq, Repr

/-- Modelled from the spec: `ServiceConfig` (crate::config) is not under src/.
Spec section 6: keep-alive mode, client timeout ms, client shutdown ms and a
secure flag (the current-date provider and header-size limit play no role in
the claims and are omitted). -/
structure ServiceConfig where
  keepAlive : KeepAliveMode
  clientTimeout : Nat
  clientShutdown : Nat
  secure : Bool
deriving DecidableEq, Repr

/-- Modelled from the spec: `ServiceConfig::keep_alive_enabled` — server-level
policy permits connection reuse at all, i.e. the keep-alive mode is not
`Disabled`. -/
def ServiceConfig.keep_alive_enabled (cfg : ServiceConfig) : Bool :=
  match cfg.keepAlive with
  | KeepAliveMode.Disabled => false
  | _ => true

/-- Modelled from the spec: the default configuration.  `service.rs` line 58
constructs `ServiceConfig::new(KeepAlive::Timeout(5), 5000, 0, false, None)`;
`Codec::default` uses `ServiceConfig::default()`, which has the same
keep-alive mode (keep-alive enabled with a 5 second timeout). -/
def ServiceConfig.default : ServiceConfig :=
  { keepAlive := KeepAliveMode.Timeout 5
  , clientTimeout := 5000
  , clientShutdown := 0
  , secure := false }

/-- The `bitflags` set of `codec.rs` lines 18-24: three independent bits
`HEAD`, `KEEPALIVE_ENABLED` and `STREAM`, modelled as named booleans. -/
structure Flags where
  head : Bool
  keepaliveEnabled : Bool
  stream : Bool
deriving DecidableEq, Repr

/-- `Flags::empty()`. -/
def Flags.empty : Flags := ⟨false, false, false⟩

/-- Payload decoder kinds, from the spec (section 4.1): chunked bodies,
length-delimited bodies, close-delimited bodies and raw upgrade streams. -/
inductive PayloadSt where
  | chunked
  | sized (remaining : Nat)
  | untilClose
  | raw
deriving DecidableEq, Repr

/-- `PayloadType` (h1::decoder): the decoder's payload classification.  The
codec only inspects the variant tag (`codec.rs` line 111). -/
inductive PayloadType where
  | none
  | payload (pl : PayloadSt)
  | stream (pl : PayloadSt)
  | upgrade (pl : PayloadSt)
deriving DecidableEq, Repr

/-- The `if let PayloadType::Stream(_) = payload` test of `codec.rs` line 111. -/
def PayloadType.isStream : PayloadType → Bool
  | PayloadType.stream _ => true
  | _ => false

/-- A decoded request, reduced to the head data the codec reads
(`codec.rs` lines 101-104): method, uri, version and the value of
`head.connection_type()` (crate::message, not under src/, so the connection
type is carried as a field of the decoded head). -/
structure Request where
  method : Method
  uri : List Char
  version : Version
  connectionType : ConnectionType
deriving DecidableEq, Repr

/-- A response head, reduced to the data the codec reads and writes
(`codec.rs` lines 130-143): its version (rewritten by `encode`) and the value
of `head.ctype()`, the explicitly requested connection type, if any. -/
structure Response where
  version : Version
  ctype : Option ConnectionType
deriving DecidableEq, Repr

/-- `BodySize` (crate::body). -/
inductive BodySize where
  | none
  | empty
  | sized (n : Nat)
  | stream
deriving DecidableEq, Repr

/-- `Message<T>` (h1): a complete item, a body chunk, or end of body. -/
inductive Message (T : Type) where
  | item (x : T)
  | chunk (b : Option Buf)
deriving DecidableEq, Repr

/-- `ParseError` (crate::error), the decoder's error kinds named by the spec
(section 7 and section 4.1). -/
inductive ParseError where
  | Method
  | Uri
  | Version
  | Header
  | TooLarge
  | Incomplete
  | Chunked
deriving DecidableEq, Repr

/-- `io::Error`, opaque: the encoder's failures are I/O-kind (spec 4.2). -/
inductive IoError where
  | generic
deriving DecidableEq, Repr

/-- One step of the inner `MessageDecoder<Request>`: from a decoder state and
a buffer, produce the decode outcome together with the successor decoder state
and remaining buffer (the decoder owns its partial-parse state, spec
section 3). -/
abbrev DecoderStep (D : Type) : Type :=
  D → Buf → Except ParseError (Option (Request × PayloadType)) × D × Buf

/-- The operations of the inner `MessageEncoder<Response<()>>`, in the shape
`codec.rs` invokes them (lines 146-163): `encode(dst, res, head, stream,
version, length, ctype, config)`, `encode_chunk(bytes, dst)` and
`encode_eof(dst)`, each threading the encoder state and destination buffer. -/
structure EncoderOps (E : Type) where
  encode : E → Buf → Response → Bool → Bool → Version → BodySize → ConnectionType →
      ServiceConfig → Except IoError Unit × E × Buf
  encodeChunk : E → Buf → Buf → Except IoError Unit × E × Buf
  encodeEof : E → Buf → Except IoError Unit × E × Buf

/-- `h1::Codec` (`codec.rs` lines 27-36), parametric in the states of the two
inner collaborators. -/
structure Codec (D E : Type) where
  config : ServiceConfig
  decoder : D
  version : Version
  ctype : ConnectionType
  flags : Flags
  encoder : E
deriving DecidableEq, Repr

/-- `Codec::new` (`codec.rs` lines 54-69).  The inner decoder and encoder are
created from their `Default` impls, which the abstraction receives as `d0` and
`e0`. -/
def Codec.new (d0 : D) (e0 : E) (config : ServiceConfig) : Codec D E :=
  { config := config
  , flags := if config.keep_alive_enabled
      then { Flags.empty with keepaliveEnabled := true }
      else Flags.empty
  , decoder := d0
  , version := Version.HTTP11
  , ctype := ConnectionType.Close
  , encoder := e0 }

/-- `Codec::upgrade` (`codec.rs` line 73). -/
def Codec.upgrade (c : Codec D E) : Bool :=
  c.ctype == ConnectionType.Upgrade

/-- `Codec::keepalive` (`codec.rs` line 79). -/
def Codec.keepalive (c : Codec D E) : Bool :=
  c.ctype == ConnectionType.KeepAlive

/-- `Codec::keepalive_enabled` (`codec.rs` line 85). -/
def Codec.keepalive_enabled (c : Codec D E) : Bool :=
  c.flags.keepaliveEnabled

/-- `<Codec as Decoder>::decode` (`codec.rs` lines 99-118), parametric in the
inner decoder step.  On a successful inner decode the `HEAD` flag is set from
the method, `version` and `ctype` are taken from the head, `ctype` is
downgraded from `KeepAlive` to `Close` when `KEEPALIVE_ENABLED` is unset, and
the `STREAM` flag is inserted when the payload is the `Stream` variant.  On
`None` or an error only the inner decoder state advances. -/
def Codec.decode (dstep : DecoderStep D) (c : Codec D E) (src : Buf) :
    Except ParseError (Option (Request × PayloadType)) × Codec D E × Buf :=
  match dstep c.decoder src with
  | (Except.error e, d, rest) => (Except.error e, { c with decoder := d }, rest)
  | (Except.ok Option.none, d, rest) => (Except.ok Option.none, { c with decoder := d }, rest)
  | (Except.ok (Option.some (req, payload)), d, rest) =>
      let flags := { c.flags with head := req.method == Method.HEAD }
      let ctype0 := req.connectionType
      let ctype :=
        if ctype0 == ConnectionType.KeepAlive && !flags.keepaliveEnabled
          then ConnectionType.Close
          else ctype0
      let flags := if payload.isStream then { flags with stream := true } else flags
      (Except.ok (Option.some (req, payload)),
        { c with decoder := d, version := req.version, ctype := ctype, flags := flags },
        rest)

/-- `<Codec as Encoder>::encode` (`codec.rs` lines 124-166), parametric in the
inner encoder operations.  For `Item` the response version is rewritten to the
codec's version, the connection type is reconciled (an explicit `KeepAlive`
preserves the codec's current decision, any other explicit value overrides),
and the encoder is invoked; the chunk arms delegate to the chunk helpers. -/
def Codec.encode (ops : EncoderOps E) (c : Codec D E)
    (item : Message (Response × BodySize)) (dst : Buf) :
    Except IoError Unit × Codec D E × Buf :=
  match item with
  | Message.item (res, length) =>
      let res := { res with version := c.version }
      let ctype :=
        match res.ctype with
        | Option.some ct =>
            if ct == ConnectionType.KeepAlive then c.ctype else ct
        | Option.none => c.ctype
      match ops.encode c.encoder dst res c.flags.head c.flags.stream c.version length
          ctype c.config with
      | (r, e, dst) => (r, { c with ctype := ctype, encoder := e }, dst)
  | Message.chunk (Option.some bytes) =>
      match ops.encodeChunk c.encoder bytes dst with
      | (r, e, dst) => (r, { c with encoder := e }, dst)
  | Message.chunk Option.none =>
      match ops.encodeEof c.encoder dst with
      | (r, e, dst) => (r, { c with encoder := e }, dst)

/-- The codec states reachable from `Codec::new(config)` by any sequence of
decode and encode operations, with arbitrary inner decoder steps, inner
encoder operations and inputs. -/
inductive ReachableCodec {D E : Type} (cfg : ServiceConfig) : Codec D E → Prop where
  | new (d0 : D) (e0 : E) : ReachableCodec cfg (Codec.new d0 e0 cfg)
  | decodeStep {c : Codec D E} (dstep : DecoderStep D) (src : Buf) :
      ReachableCodec cfg c → ReachableCodec cfg (Codec.decode dstep c src).2.1
  | encodeStep {c : Codec D E} (ops : EncoderOps E)
      (item : Message (Response × BodySize)) (dst : Buf) :
      ReachableCodec cfg c → ReachableCodec cfg (Codec.encode ops c item dst).2.1

/-!
A concrete HTTP/1 request-head parser and chunked payload decoder.  The code
of `h1::decoder` (MessageDecoder, PayloadDecoder) is code of this repository
that is not under src/; the definitions below are modelled from the spec
(sections 4.1 and 8) and instantiate the parametric codec for the end-to-end
scenario S1.
-/

/-- Split a buffer at the first CRLF; `none` when no CRLF is present yet. -/
def findCRLF : Buf → Option (Buf × Buf)
  | '\r' :: '\n' :: rest => Option.some ([], rest)
  | c :: rest => (findCRLF rest).map (fun p => (c :: p.1, p.2))
  | [] => Option.none

/-- Split a buffer at the first CRLF-CRLF (end of a request head, spec 4.1);
`none` when the head is still incomplete. -/
def findCRLFCRLF : Buf → Option (Buf × Buf)
  | '\r' :: '\n' :: '\r' :: '\n' :: rest => Option.some ([], rest)
  | c :: rest => (findCRLFCRLF rest).map (fun p => (c :: p.1, p.2))
  | [] => Option.none

/-- Split a complete head into its CRLF-separated lines (fuel recursion so
that the definition reduces definitionally). -/
def splitLinesF : Nat → Buf → List Buf
  | 0, buf => [buf]
  | fuel + 1, buf =>
      match findCRLF buf with
      | Option.none => [buf]
      | Option.some (line, rest) => line :: splitLinesF fuel rest

/-- Split a complete head into its CRLF-separated lines. -/
def splitLines (buf : Buf) : List Buf := splitLinesF buf.length buf

/-- Split a list on a separator character (used for the SP-separated request
line). -/
def splitOnChar (sep : Char) : Buf → List Buf
  | [] => [[]]
  | c :: rest =>
      match splitOnChar sep rest with
      | [] => [[c]]
      | h :: t => if c = sep then [] :: h :: t else (c :: h) :: t

/-- Split a header line at the first colon. -/
def splitHeaderLine : Buf → Option (Buf × Buf)
  | [] => Option.none
  | c :: rest =>
      if c = ':' then Option.some ([], rest)
      else (splitHeaderLine rest).map (fun p => (c :: p.1, p.2))

/-- ASCII lowercase a buffer (header names and values compare
case-insensitively). -/
def toLower (l : Buf) : Buf := l.map Char.toLower

/-- Strip leading and trailing spaces. -/
def trimSpaces (l : Buf) : Buf :=
  ((l.dropWhile (fun c => c = ' ')).reverse.dropWhile (fun c => c = ' ')).reverse

/-- Modelled from the spec: method tokenization (spec 4.1) — named methods are
recognised, any other nonempty token is accepted as an extension token. -/
def parseMethod (t : Buf) : Except ParseError Method :=
  if t = "GET".toList then Except.ok Method.GET
  else if t = "HEAD".toList then Except.ok Method.HEAD
  else if t = "POST".toList then Except.ok Method.POST
  else if t = "PUT".toList then Except.ok Method.PUT
  else if t = "DELETE".toList then Except.ok Method.DELETE
  else if t = "CONNECT".toList then Except.ok Method.CONNECT
  else if t = "OPTIONS".toList then Except.ok Method.OPTIONS
  else if t = [] then Except.error ParseError.Method
  else Except.ok (Method.other t)

/-- Modelled from the spec: version tokenization (spec 4.1) — versions below
1.0 or above 1.1 fail with `Version`. -/
def parseVersionTok (t : Buf) : Except ParseError Version :=
  if t = "HTTP/1.1".toList then Except.ok Version.HTTP11
  else if t = "HTTP/1.0".toList then Except.ok Version.HTTP10
  else Except.error ParseError.Version

/-- Modelled from the spec: the request line `METHOD SP PATH SP VERSION`. -/
def parseRequestLine (line : Buf) : Except ParseError (Method × Buf × Version) :=
  match splitOnChar ' ' line with
  | [m, u, v] =>
      match parseMethod m, parseVersionTok v with
      | Except.ok mm, Except.ok vv =>
          if u = [] then Except.error ParseError.Uri else Except.ok (mm, u, vv)
      | Except.error e, _ => Except.error e
      | _, Except.error e => Except.error e
  | _ => Except.error ParseError.Uri

/-- Modelled from the spec: one `name: value` header line; a line without a
colon fails with `Header`. -/
def parseHeaderLine (line : Buf) : Except ParseError (Buf × Buf) :=
  match splitHeaderLine line with
  | Option.none => Except.error ParseError.Header
  | Option.some (name, value) =>
      Except.ok (toLower (trimSpaces name), toLower (trimSpaces value))

/-- Parse all header lines of a head. -/
def parseHeaderLines : List Buf → Except ParseError (List (Buf × Buf))
  | [] => Except.ok []
  | l :: rest =>
      match parseHeaderLine l, parseHeaderLines rest with
      | Except.ok h, Except.ok t => Except.ok (h :: t)
      | Except.error e, _ => Except.error e
      | _, Except.error e => Except.error e

/-- All values carried by a given (lowercased) header name. -/
def headerValues (name : Buf) (hs : List (Buf × Buf)) : List Buf :=
  (hs.filter (fun h => h.1 == name)).map (fun h => h.2)

/-- Whether all values in a list agree (agreeing duplicate Content-Length
values are accepted, spec 4.1). -/
def allEqual : List Buf → Bool
  | [] => true
  | x :: rest => rest.all (fun y => y == x)

/-- Decimal number parse for Content-Length values. -/
def parseDecNat (l : Buf) : Option Nat :=
  match l with
  | [] => Option.none
  | _ => l.foldl
      (fun acc c => acc.bind fun a =>
        if '0' ≤ c ∧ c ≤ '9' then Option.some (a * 10 + (c.toNat - '0'.toNat))
        else Option.none)
      (Option.some 0)

/-- Hexadecimal digit value. -/
def hexVal (c : Char) : Option Nat :=
  if '0' ≤ c ∧ c ≤ '9' then Option.some (c.toNat - '0'.toNat)
  else if 'a' ≤ c ∧ c ≤ 'f' then Option.some (c.toNat - 'a'.toNat + 10)
  else if 'A' ≤ c ∧ c ≤ 'F' then Option.some (c.toNat - 'A'.toNat + 10)
  else Option.none

/-- Hexadecimal number parse for chunk-size lines. -/
def parseHexNat (l : Buf) : Option Nat :=
  match l with
  | [] => Option.none
  | _ => l.foldl
      (fun acc c => acc.bind fun a => (hexVal c).map fun v => a * 16 + v)
      (Option.some 0)

/-- Modelled from the spec: the default connection disposition when the
request carries no recognised Connection header — keep-alive for HTTP/1.1,
close otherwise (spec section 8, S2/S3). -/
def defaultCtype : Version → ConnectionType
  | Version.HTTP11 => ConnectionType.KeepAlive
  | _ => ConnectionType.Close

/-- Modelled from the spec: `RequestHead::connection_type` — the disposition
derived from the Connection header (`close`, `keep-alive`, `upgrade`), falling
back to the version default (spec section 3). -/
def connectionTypeOf (conn : Option Buf) (v : Version) : ConnectionType :=
  match conn with
  | Option.some cv =>
      if cv = "close".toList then ConnectionType.Close
      else if cv = "keep-alive".toList then ConnectionType.KeepAlive
      else if cv = "upgrade".toList then ConnectionType.Upgrade
      else defaultCtype v
  | Option.none => defaultCtype v

/-- Modelled from the spec: methods that allow no message body by default (the
spec's "bodyless method"; the exact set is left open by the spec, this takes
the RFC 7231 safe methods plus DELETE). -/
def bodylessMethod : Method → Bool
  | Method.GET => true
  | Method.HEAD => true
  | Method.OPTIONS => true
  | Method.DELETE => true
  | _ => false

/-- Modelled from the spec: payload framing selection (spec 4.1, in the
spec's order): Content-Length and Transfer-Encoding are mutually exclusive;
`chunked` gives a chunked payload; a positive Content-Length gives a sized
payload; `Connection: upgrade` or CONNECT gives an upgrade payload;
HTTP/1.0 without Content-Length on a body-allowing method streams until
close; otherwise there is no payload. -/
def selectPayload (m : Method) (v : Version) (ct : ConnectionType)
    (te : Option Buf) (cls : List Buf) : Except ParseError PayloadType :=
  match te with
  | Option.some tev =>
      if cls ≠ [] then Except.error ParseError.Header
      else if tev = "chunked".toList then Except.ok (PayloadType.payload PayloadSt.chunked)
      else Except.error ParseError.Header
  | Option.none =>
      match cls with
      | [] =>
          if ct = ConnectionType.Upgrade ∨ m = Method.CONNECT then
            Except.ok (PayloadType.upgrade PayloadSt.raw)
          else if v = Version.HTTP10 ∧ ¬ bodylessMethod m = true then
            Except.ok (PayloadType.stream PayloadSt.untilClose)
          else Except.ok PayloadType.none
      | c :: restCl =>
          if allEqual (c :: restCl) then
            match parseDecNat c with
            | Option.none => Except.error ParseError.Header
            | Option.some 0 =>
                if ct = ConnectionType.Upgrade ∨ m = Method.CONNECT then
                  Except.ok (PayloadType.upgrade PayloadSt.raw)
                else Except.ok PayloadType.none
            | Option.some (n + 1) => Except.ok (PayloadType.payload (PayloadSt.sized (n + 1)))
          else Except.error ParseError.Header

/-- Modelled from the spec: `MessageDecoder::decode` (spec 4.1) — `None` until
the head's terminating CRLF-CRLF arrives, then a parsed head plus a payload
classification, consuming exactly the head bytes from the buffer. -/
def specMessageDecode (buf : Buf) :
    Except ParseError (Option (Request × PayloadType)) × Buf :=
  match findCRLFCRLF buf with
  | Option.none => (Except.ok Option.none, buf)
  | Option.some (head, rest) =>
      match splitLines head with
      | [] => (Except.error ParseError.Uri, buf)
      | reqLine :: headerLines =>
          match parseRequestLine reqLine with
          | Except.error e => (Except.error e, buf)
          | Except.ok (m, u, v) =>
              match parseHeaderLines headerLines with
              | Except.error e => (Except.error e, buf)
              | Except.ok hs =>
                  let te := (headerValues "transfer-encoding".toList hs).head?
                  let cls := headerValues "content-length".toList hs
                  let conn := (headerValues "connection".toList hs).head?
                  let ct := connectionTypeOf conn v
                  match selectPayload m v ct te cls with
                  | Except.error e => (Except.error e, buf)
                  | Except.ok pl =>
                      (Except.ok (Option.some
                        ({ method := m, uri := u, version := v, connectionType := ct }, pl)),
                       rest)

/-- The spec-modelled message decoder as a `DecoderStep` (it keeps no state of
its own: incomplete input leaves the buffer untouched). -/
def specDStep : DecoderStep Unit := fun _ buf =>
  match specMessageDecode buf with
  | (r, rest) => (r, (), rest)

/-- A payload item produced by the payload decoder: a body chunk or EOF. -/
inductive PayloadItem where
  | chunk (b : Buf)
  | eof
deriving DecidableEq, Repr

/-- Modelled from the spec: skip optional trailer lines after the zero-size
chunk, up to and including the empty line (spec 4.1); `none` when more bytes
are needed. -/
def skipTrailers : Nat → Buf → Option Buf
  | 0, _ => Option.none
  | fuel + 1, buf =>
      match findCRLF buf with
      | Option.none => Option.none
      | Option.some (line, rest) =>
          if line = [] then Option.some rest else skipTrailers fuel rest

/-- Modelled from the spec: one step of the payload decoder (spec 4.1 and
4.2's chunk grammar).  For a chunked payload: parse a hex size line; size 0
plus trailers yields EOF, a positive size yields one chunk of exactly that
many bytes followed by CRLF.  Sized payloads count down their remaining
bytes; close-delimited and raw payloads emit whatever is buffered. -/
def payloadDecode : PayloadSt → Buf → Except ParseError (Option PayloadItem) × PayloadSt × Buf
  | PayloadSt.chunked, buf =>
      (match findCRLF buf with
      | Option.none => (Except.ok Option.none, PayloadSt.chunked, buf)
      | Option.some (sizeLine, rest) =>
          match parseHexNat sizeLine with
          | Option.none => (Except.error ParseError.Chunked, PayloadSt.chunked, buf)
          | Option.some 0 =>
              match skipTrailers (rest.length + 1) rest with
              | Option.none => (Except.ok Option.none, PayloadSt.chunked, buf)
              | Option.some rest2 =>
                  (Except.ok (Option.some PayloadItem.eof), PayloadSt.chunked, rest2)
          | Option.some (n + 1) =>
              if rest.length < n + 1 + 2 then (Except.ok Option.none, PayloadSt.chunked, buf)
              else if (rest.drop (n + 1)).take 2 = ['\r', '\n'] then
                (Except.ok (Option.some (PayloadItem.chunk (rest.take (n + 1)))),
                 PayloadSt.chunked, (rest.drop (n + 1)).drop 2)
              else (Except.error ParseError.Chunked, PayloadSt.chunked, buf))
  | PayloadSt.sized 0, buf => (Except.ok (Option.some PayloadItem.eof), PayloadSt.sized 0, buf)
  | PayloadSt.sized (n + 1), buf =>
      if buf = [] then (Except.ok Option.none, PayloadSt.sized (n + 1), buf)
      else
        (Except.ok (Option.some (PayloadItem.chunk (buf.take (n + 1)))),
         PayloadSt.sized (n + 1 - (buf.take (n + 1)).length), buf.drop (n + 1))
  | PayloadSt.untilClose, buf =>
      if buf = [] then (Except.ok Option.none, PayloadSt.untilClose, buf)
      else (Except.ok (Option.some (PayloadItem.chunk buf)), PayloadSt.untilClose, [])
  | PayloadSt.raw, buf =>
      if buf = [] then (Except.ok Option.none, PayloadSt.raw, buf)
      else (Except.ok (Option.some (PayloadItem.chunk buf)), PayloadSt.raw, [])

/-!
Scenario S1 constants (`codec.rs` test lines 177-212, spec section 8) and
oracle decoders/encoders used by the theorems below.
-/

/-- First input buffer of scenario S1. -/
def s1Buf1 : Buf := "GET /test HTTP/1.1\r\ntransfer-encoding: chunked\r\n\r\n".toList

/-- Bytes appended to the buffer in scenario S1: two chunks, the terminating
zero chunk, and a pipelined second request head. -/
def s1Buf2 : Buf :=
  "4\r\ndata\r\n4\r\nline\r\n0\r\n\r\nPOST /test2 HTTP/1.1\r\ntransfer-encoding: chunked\r\n\r\n".toList

/-- `Codec::default()` instantiated with the spec-modelled message decoder
(stateless, so `Unit`) and a unit encoder state. -/
def s1Codec0 : Codec Unit Unit := Codec.new () () ServiceConfig.default

/-- First decode of scenario S1 (the GET head). -/
def s1D1 := Codec.decode specDStep s1Codec0 s1Buf1

/-- First payload decode: consumes `4\r\ndata\r\n` from the appended buffer. -/
def s1P1 := payloadDecode PayloadSt.chunked (s1D1.2.2 ++ s1Buf2)

/-- Second payload decode: consumes `4\r\nline\r\n`. -/
def s1P2 := payloadDecode s1P1.2.1 s1P1.2.2

/-- Third payload decode: consumes the terminating `0\r\n\r\n`. -/
def s1P3 := payloadDecode s1P2.2.1 s1P2.2.2

/-- Second head decode of scenario S1 (the pipelined POST). -/
def s1D2 := Codec.decode specDStep s1D1.2.1 s1P3.2.2

/-- An oracle inner decoder that replays a fixed script of decoded items; its
state is the remaining script.  Used to build concrete reachable codec
states. -/
def scriptedDecoder : DecoderStep (List (Request × PayloadType)) := fun q buf =>
  match q with
  | [] => (Except.ok Option.none, [], buf)
  | x :: rest => (Except.ok (Option.some x), rest, buf)

/-- An oracle inner decoder that always fails. -/
def failingDecoder : DecoderStep Unit := fun _ buf =>
  (Except.error ParseError.Method, (), buf)

/-- A request head with no special headers (keep-alive HTTP/1.1 GET). -/
def reqPlain : Request :=
  { method := Method.GET
  , uri := "/".toList
  , version := Version.HTTP11
  , connectionType := ConnectionType.KeepAlive }

/-- One recorded invocation of the inner encoder: the exact arguments
`codec.rs` line 146 passes to `self.encoder.encode`. -/
structure EncCall where
  res : Response
  isHead : Bool
  isStream : Bool
  version : Version
  length : BodySize
  ctype : ConnectionType
  cfg : ServiceConfig
deriving DecidableEq, Repr

/-- Encoder operations that record every head invocation and leave the buffer
untouched; used to observe the arguments `Codec::encode` passes to the inner
encoder. -/
def recordingOps : EncoderOps (List EncCall) :=
  { encode := fun e dst res h s v l ct cfg =>
      (Except.ok (), e ++ [{ res := res, isHead := h, isStream := s, version := v
                           , length := l, ctype := ct, cfg := cfg }], dst)
  , encodeChunk := fun e _ dst => (Except.ok (), e, dst)
  , encodeEof := fun e dst => (Except.ok (), e, dst) }

/-- Reconciliation of the connection type on encode, written in the words of
the specification (section 4.3): if the response carries no explicit
connection type, or explicitly requests `KeepAlive`, the codec's current
decision is preserved; any other explicit value overrides it. -/
def specReconcileCtype (current : ConnectionType) (resCtype : Option ConnectionType) :
    ConnectionType :=
  match resCtype with
  | Option.none => current
  | Option.some ConnectionType.KeepAlive => current
  | Option.some ct => ct

/-!
Embedding of `service.rs`: protocol tagging, combined readiness, and the
construction of the service handler and its flow.
-/

/-- `Protocol` (crate root): the pre-negotiated protocol tag. -/
inductive Protocol where
  | http1
  | http2
deriving DecidableEq, Repr

/-- `slice::windows(2)` on the negotiated ALPN protocol bytes. -/
def windows2 : List Nat → List (List Nat)
  | a :: b :: rest => [a, b] :: windows2 (b :: rest)
  | _ => []

/-- Protocol selection from the negotiated ALPN protocol (`service.rs` lines
229-237 for openssl and lines 297-305 for rustls, which are identical):
`Http2` exactly when the negotiated bytes contain the two-byte window `h2`
(bytes 104, 50); no negotiated protocol means `Http1`. -/
def alpnProtocol (selected : Option (List Nat)) : Protocol :=
  match selected with
  | Option.some protos =>
      if (windows2 protos).any (fun w => w == [104, 50]) then Protocol.http2
      else Protocol.http1
  | Option.none => Protocol.http1

/-- The plain-TCP service (`service.rs` lines 176-179) always tags
connections `Http1`. -/
def tcpProtocol : Protocol := Protocol.http1

/-- The outcome of polling one sub-service's readiness
(`Poll<Result<(), E>>`), after the source's `map_err`: pending, ready, or a
service error. -/
inductive SvcPoll (E : Type) where
  | pending
  | ready
  | readyErr (e : E)
deriving DecidableEq, Repr

/-- `Poll::is_ready` on the non-error outcomes. -/
def SvcPoll.isReady : SvcPoll E → Bool
  | SvcPoll.ready => true
  | _ => false

/-- `DispatchError`, reduced to the variant `poll_ready` produces. -/
inductive DispatchErrorT (E : Type) where
  | service (e : E)
deriving DecidableEq, Repr

/-- The return value of `HttpServiceHandler::poll_ready`. -/
inductive ReadyOut (E : Type) where
  | pending
  | ok
  | err (e : DispatchErrorT E)
deriving DecidableEq, Repr

/-- `HttpServiceHandler::poll_ready` (`service.rs` lines 511-553): the expect
service is polled first, then the main service, then — only when configured —
the upgrade service (`upgradeP = none` models a handler without an upgrade
service).  An error from any polled service returns immediately as
`DispatchError::Service`; otherwise the result is ready exactly when every
polled service was ready. -/
def poll_ready (expectP serviceP : SvcPoll E) (upgradeP : Option (SvcPoll E)) : ReadyOut E :=
  match expectP with
  | SvcPoll.readyErr e => ReadyOut.err (DispatchErrorT.service e)
  | _ =>
      let ready := expectP.isReady
      match serviceP with
      | SvcPoll.readyErr e => ReadyOut.err (DispatchErrorT.service e)
      | _ =>
          let ready := serviceP.isReady && ready
          match upgradeP with
          | Option.some (SvcPoll.readyErr e) => ReadyOut.err (DispatchErrorT.service e)
          | Option.some up =>
              if up.isReady && ready then ReadyOut.ok else ReadyOut.pending
          | Option.none => if ready then ReadyOut.ok else ReadyOut.pending

/-- `HttpFlow` (`service.rs` lines 449-453): the immutable triple of services
bound to a connection.  The expect service is a mandatory field; the upgrade
service is optional. -/
structure HttpFlow (S X U : Type) where
  service : S
  expect : X
  upgrade : Option U

/-- `HttpFlow::new` (`service.rs` lines 456-462; the `Rc` is immaterial to the
value). -/
def HttpFlow.new (service : S) (expect : X) (upgrade : Option U) : HttpFlow S X U :=
  { service := service, expect := expect, upgrade := upgrade }

/-- `HttpServiceHandler` (`service.rs` lines 436-446), reduced to the data the
claims speak about. -/
structure HttpServiceHandler (S X U : Type) where
  cfg : ServiceConfig
  flow : HttpFlow S X U

/-- `HttpServiceHandler::new` (`service.rs` lines 477-490). -/
def HttpServiceHandler.new (cfg : ServiceConfig) (service : S) (expect : X)
    (upgrade : Option U) : HttpServiceHandler S X U :=
  { cfg := cfg, flow := HttpFlow.new service expect upgrade }

/-- One poll of an abstract service-factory future: still pending, resolved
with a service, or failed with an init error. -/
inductive FutPoll (α : Type) where
  | pending
  | ok (a : α)
  | err
deriving DecidableEq, Repr

/-- The state of `HttpServiceResponse` (`service.rs` lines 356-373): whether
the expect / upgrade factory futures are still live, and the services already
resolved.  `futUpg = false` with `upgrade = none` also covers the case where
no upgrade factory was supplied. -/
structure HttpServiceResponseState (X U : Type) where
  cfg : ServiceConfig
  futEx : Bool
  futUpg : Bool
  expect : Option X
  upgrade : Option U

/-- `HttpService::new_service` (`service.rs` lines 340-352): the expect
factory future is always started; the upgrade factory future is started
exactly when an upgrade factory was supplied (`hasUpgrade`); no service is
resolved yet. -/
def newServiceState (cfg : ServiceConfig) (hasUpgrade : Bool) :
    HttpServiceResponseState X U :=
  { cfg := cfg, futEx := true, futUpg := hasUpgrade
  , expect := Option.none, upgrade := Option.none }

/-- The outcome of one `HttpServiceResponse::poll`: pending, an init error, or
the resolved handler.  `ready (Except.ok none)` marks the (unreachable) panic
of `this.expect.take().unwrap()` with no resolved expect service. -/
inductive ServicePollOut (S X U : Type) where
  | pending
  | ready (r : Except Unit (Option (HttpServiceHandler S X U)))

/-- Final stage of `HttpServiceResponse::poll` (`service.rs` lines 417-431):
poll the main factory future and on success build the handler from the
resolved services, taking the expect and upgrade slots. -/
def pollStepMain (st : HttpServiceResponseState X U) (pMain : FutPoll S) :
    HttpServiceResponseState X U × ServicePollOut S X U :=
  match pMain with
  | FutPoll.pending => (st, ServicePollOut.pending)
  | FutPoll.err => (st, ServicePollOut.ready (Except.error ()))
  | FutPoll.ok s =>
      match st.expect with
      | Option.some x =>
          ({ st with expect := Option.none, upgrade := Option.none },
           ServicePollOut.ready (Except.ok (Option.some
             (HttpServiceHandler.new st.cfg s x st.upgrade))))
      | Option.none => (st, ServicePollOut.ready (Except.ok Option.none))

/-- Middle stage of `HttpServiceResponse::poll` (`service.rs` lines 408-415):
drive the upgrade factory future when it is still live. -/
def pollStepUpg (st : HttpServiceResponseState X U) (pUpg : FutPoll U) (pMain : FutPoll S) :
    HttpServiceResponseState X U × ServicePollOut S X U :=
  if st.futUpg then
    match pUpg with
    | FutPoll.pending => (st, ServicePollOut.pending)
    | FutPoll.err => (st, ServicePollOut.ready (Except.error ()))
    | FutPoll.ok u => pollStepMain { st with futUpg := false, upgrade := Option.some u } pMain
  else pollStepMain st pMain

/-- `HttpServiceResponse::poll` (`service.rs` lines 396-432): drive the expect
factory future, then the upgrade factory future, then the main factory
future, in that order, within a single poll. -/
def pollStep (st : HttpServiceResponseState X U) (pEx : FutPoll X) (pUpg : FutPoll U)
    (pMain : FutPoll S) : HttpServiceResponseState X U × ServicePollOut S X U :=
  if st.futEx then
    match pEx with
    | FutPoll.pending => (st, ServicePollOut.pending)
    | FutPoll.err => (st, ServicePollOut.ready (Except.error ()))
    | FutPoll.ok x => pollStepUpg { st with futEx := false, expect := Option.some x } pUpg pMain
  else pollStepUpg st pUpg pMain

/-- Repeated polling of `HttpServiceResponse` with one oracle triple per poll,
until the future resolves (`none` when the poll budget ends while still
pending). -/
def runPolls (st : HttpServiceResponseState X U) :
    List (FutPoll X × FutPoll U × FutPoll S) →
    HttpServiceResponseState X U × Option (ServicePollOut S X U)
  | [] => (st, Option.none)
  | (pEx, pUpg, pMain) :: rest =>
      match pollStep st pEx pUpg pMain with
      | (st2, ServicePollOut.pending) => runPolls st2 rest
      | (st2, ServicePollOut.ready r) => (st2, Option.some (ServicePollOut.ready r))

/-!
Helper lemmas about the codec's state transitions, shared by the claim
theorems below.
-/

theorem Codec.decode_preserves {D E : Type} (dstep : DecoderStep D) (c : Codec D E)
    (src : Buf) :
    ((Codec.decode dstep c src).2.1).encoder = c.encoder
    ∧ ((Codec.decode dstep c src).2.1).config = c.config
    ∧ ((Codec.decode dstep c src).2.1).flags.keepaliveEnabled = c.flags.keepaliveEnabled := by
  unfold Codec.decode
  split
  · simp
  · simp
  · split <;> simp

theorem Codec.encode_preserves {D E : Type} (ops : EncoderOps E) (c : Codec D E)
    (item : Message (Response × BodySize)) (dst : Buf) :
    ((Codec.encode ops c item dst).2.1).decoder = c.decoder
    ∧ ((Codec.encode ops c item dst).2.1).flags = c.flags
    ∧ ((Codec.encode ops c item dst).2.1).version = c.version
    ∧ ((Codec.encode ops c item dst).2.1).config = c.config := by
  unfold Codec.encode
  rcases item with x | b
  · simp
  · rcases b with _ | bytes <;> simp

theorem Codec.encode_ctype_eq {D E : Type} (ops : EncoderOps E) (c : Codec D E)
    (res : Response) (length : BodySize) (dst : Buf) :
    ((Codec.encode ops c (Message.item (res, length)) dst).2.1).ctype
      = specReconcileCtype c.ctype res.ctype := by
  unfold Codec.encode specReconcileCtype
  rcases res with ⟨v, ct⟩
  rcases ct with _ | ct
  · simp
  · rcases ct <;> simp

theorem Codec.encode_chunk_ctype_eq {D E : Type} (ops : EncoderOps E) (c : Codec D E)
    (b : Option Buf) (dst : Buf) :
    ((Codec.encode ops c (Message.chunk b) dst).2.1).ctype = c.ctype := by
  unfold Codec.encode
  rcases b with _ | bytes <;> simp

theorem Codec.encode_ctype_keepalive_mono {D E : Type} (ops : EncoderOps E) (c : Codec D E)
    (item : Message (Response × BodySize)) (dst : Buf) :
    ((Codec.encode ops c item dst).2.1).ctype = ConnectionType.KeepAlive →
    c.ctype = ConnectionType.KeepAlive := by
  rcases item with ⟨res, length⟩ | b
  · rw [Codec.encode_ctype_eq]
    unfold specReconcileCtype
    rcases res with ⟨v, ct⟩
    rcases ct with _ | ct
    · exact id
    · rcases ct <;> simp
  · rw [Codec.encode_chunk_ctype_eq]
    exact id

theorem Codec.decode_ctype_gating {D E : Type} (dstep : DecoderStep D) (c : Codec D E)
    (src : Buf) :
    ((Codec.decode dstep c src).2.1).ctype = ConnectionType.KeepAlive →
    c.ctype = ConnectionType.KeepAlive ∨ c.flags.keepaliveEnabled = true := by
  unfold Codec.decode
  split
  · exact fun h => Or.inl h
  · exact fun h => Or.inl h
  · rename_i req payload d rest heq
    cases hf : c.flags.keepaliveEnabled
    · cases hct : req.connectionType <;> simp_all
    · exact fun _ => Or.inr rfl

theorem Codec.decode_success_ctype_not_ka {D E : Type} (dstep : DecoderStep D)
    (c : Codec D E) (src : Buf) (x : Request × PayloadType)
    (hf : c.flags.keepaliveEnabled = false)
    (hs : (Codec.decode dstep c src).1 = Except.ok (Option.some x)) :
    ((Codec.decode dstep c src).2.1).ctype ≠ ConnectionType.KeepAlive := by
  unfold Codec.decode at hs ⊢
  split at hs <;> simp_all
  rename_i req payload d rest heq
  cases hct : req.connectionType <;> simp_all

theorem Codec.cycle_keepalive_false {D E : Type} (dstep : DecoderStep D) (c : Codec D E)
    (src : Buf) (ops : EncoderOps E) (item : Message (Response × BodySize)) (dst : Buf)
    (x : Request × PayloadType)
    (hf : c.flags.keepaliveEnabled = false)
    (hs : (Codec.decode dstep c src).1 = Except.ok (Option.some x)) :
    ((Codec.encode ops ((Codec.decode dstep c src).2.1) item dst).2.1).keepalive = false := by
  have h1 := Codec.decode_success_ctype_not_ka dstep c src x hf hs
  have h2 := Codec.encode_ctype_keepalive_mono ops ((Codec.decode dstep c src).2.1) item dst
  have h3 : ((Codec.encode ops ((Codec.decode dstep c src).2.1) item dst).2.1).ctype
      ≠ ConnectionType.KeepAlive := fun h => h1 (h2 h)
  simp [Codec.keepalive, h3]

/-- Claim C9: a codec returned by `Codec::new(config)` (and hence
`Codec::default`, which is `Codec::new(ServiceConfig::default())`) reports
`keepalive() == false` and `upgrade() == false` (its initial `ctype` is
`Close` even when keep-alive policy is enabled), its version is HTTP/1.1, and
`keepalive_enabled()` equals `config.keep_alive_enabled()` — before the first
request is decoded the codec never reports a reusable connection. -/
theorem fresh_codec_state {D E : Type} (cfg : ServiceConfig) (d0 : D) (e0 : E) :
    (Codec.new d0 e0 cfg).keepalive = false
    ∧ (Codec.new d0 e0 cfg).upgrade = false
    ∧ (Codec.new d0 e0 cfg).ctype = ConnectionType.Close
    ∧ (Codec.new d0 e0 cfg).version = Version.HTTP11
    ∧ (Codec.new d0 e0 cfg).keepalive_enabled = cfg.keep_alive_enabled := by
  refine ⟨rfl, rfl, rfl, rfl, ?_⟩
  cases h : cfg.keep_alive_enabled <;>
    simp [Codec.keepalive_enabled, Codec.new, h, Flags.empty]

/-- Claim C5: state separation between the two halves of the codec — for
every codec state and input, `Codec::encode` (any message variant, any inner
encoder operations) leaves the decoder component unchanged (and touches none
of the shared flags, version or config), and `Codec::decode` (any inner
decoder step) leaves the encoder component unchanged (its only effect visible
to the encoding half is through the shared flags). -/
theorem codec_state_separation :
    (∀ (D E : Type) (ops : EncoderOps E) (c : Codec D E)
        (item : Message (Response × BodySize)) (dst : Buf),
        ((Codec.encode ops c item dst).2.1).decoder = c.decoder
        ∧ ((Codec.encode ops c item dst).2.1).flags = c.flags
        ∧ ((Codec.encode ops c item dst).2.1).config = c.config)
    ∧ (∀ (D E : Type) (dstep : DecoderStep D) (c : Codec D E) (src : Buf),
        ((Codec.decode dstep c src).2.1).encoder = c.encoder
        ∧ ((Codec.decode dstep c src).2.1).config = c.config) :=
  ⟨fun _ _ ops c item dst =>
      ⟨(Codec.encode_preserves ops c item dst).1,
       (Codec.encode_preserves ops c item dst).2.1,
       (Codec.encode_preserves ops c item dst).2.2.2⟩,
   fun _ _ dstep c src =>
      ⟨(Codec.decode_preserves dstep c src).1,
       (Codec.decode_preserves dstep c src).2.1⟩⟩

/-- Claim C10: `Codec::decode` mutates codec state only on success — when the
inner decoder returns `None` the codec returns `Ok(None)`, when it returns an
error the error is propagated unchanged, and in both cases the codec's
version, ctype and flags are exactly as before the call. -/
theorem decode_pure_unless_success {D E : Type} (dstep : DecoderStep D) (c : Codec D E)
    (src : Buf) :
    ((dstep c.decoder src).1 = Except.ok Option.none →
       (Codec.decode dstep c src).1 = Except.ok Option.none
       ∧ ((Codec.decode dstep c src).2.1).version = c.version
       ∧ ((Codec.decode dstep c src).2.1).ctype = c.ctype
       ∧ ((Codec.decode dstep c src).2.1).flags = c.flags)
    ∧ (∀ e, (dstep c.decoder src).1 = Except.error e →
       (Codec.decode dstep c src).1 = Except.error e
       ∧ ((Codec.decode dstep c src).2.1).version = c.version
       ∧ ((Codec.decode dstep c src).2.1).ctype = c.ctype
       ∧ ((Codec.decode dstep c src).2.1).flags = c.flags) := by
  unfold Codec.decode
  constructor
  · intro h
    split <;> simp_all
  · intro e h
    split <;> simp_all

/-- A fresh codec whose scripted inner decoder has an empty script (it always
answers "need more bytes"). -/
def cEmptyQ : Codec (List (Request × PayloadType)) Nat :=
  Codec.new [] 0 ServiceConfig.default

/-- A fresh codec paired with the always-failing inner decoder. -/
def cUnitD : Codec Unit Nat := Codec.new () 0 ServiceConfig.default

/-- Witness for C10 at concrete inputs: an inner decoder that needs more
bytes, and one that fails, each leaving the codec fields untouched. -/
theorem decode_pure_unless_success_witness :
    ((Codec.decode scriptedDecoder cEmptyQ []).1 = Except.ok Option.none
      ∧ ((Codec.decode scriptedDecoder cEmptyQ []).2.1).version = cEmptyQ.version
      ∧ ((Codec.decode scriptedDecoder cEmptyQ []).2.1).ctype = cEmptyQ.ctype
      ∧ ((Codec.decode scriptedDecoder cEmptyQ []).2.1).flags = cEmptyQ.flags)
    ∧ ((Codec.decode failingDecoder cUnitD []).1 = Except.error ParseError.Method
      ∧ ((Codec.decode failingDecoder cUnitD []).2.1).version = cUnitD.version
      ∧ ((Codec.decode failingDecoder cUnitD []).2.1).ctype = cUnitD.ctype
      ∧ ((Codec.decode failingDecoder cUnitD []).2.1).flags = cUnitD.flags) :=
  ⟨(decode_pure_unless_success scriptedDecoder cEmptyQ []).1 rfl,
   (decode_pure_unless_success failingDecoder cUnitD []).2 ParseError.Method rfl⟩

/-- Claim C3: when `Codec::encode` is given `Message::Item((response,
body_size))`, the response head's version is rewritten to the codec's current
version before serialization, the codec's ctype is reconciled exactly as
`specReconcileCtype` states (no explicit value or an explicit `KeepAlive`
preserves the codec's decision, `Close`/`Upgrade` override it), and the inner
encoder is invoked once with the rewritten response, that effective ctype and
the codec's flags, version, body size and config (observed through a recording
encoder). -/
theorem encode_item_version_and_ctype {D : Type} (c : Codec D (List EncCall))
    (res : Response) (length : BodySize) (dst : Buf) :
    ((Codec.encode recordingOps c (Message.item (res, length)) dst).2.1).encoder
      = c.encoder ++
        [{ res := { res with version := c.version }
         , isHead := c.flags.head
         , isStream := c.flags.stream
         , version := c.version
         , length := length
         , ctype := specReconcileCtype c.ctype res.ctype
         , cfg := c.config }]
    ∧ ((Codec.encode recordingOps c (Message.item (res, length)) dst).2.1).ctype
      = specReconcileCtype c.ctype res.ctype
    ∧ (∀ (E : Type) (ops : EncoderOps E) (c2 : Codec D E),
        ((Codec.encode ops c2 (Message.item (res, length)) dst).2.1).ctype
          = specReconcileCtype c2.ctype res.ctype) := by
  refine ⟨?_, Codec.encode_ctype_eq recordingOps c res length dst,
    fun E ops c2 => Codec.encode_ctype_eq ops c2 res length dst⟩
  unfold Codec.encode specReconcileCtype recordingOps
  rcases res with ⟨v, ct⟩
  rcases ct with _ | ct
  · simp
  · rcases ct <;> simp

/-- Claim C1: keep-alive gating invariant.  Every codec state reachable from
`Codec::new(config)` by decode/encode operations keeps `KEEPALIVE_ENABLED`
equal to the configured policy; whenever `ctype` is `KeepAlive` the
`KEEPALIVE_ENABLED` flag is set (the decoder downgrades to `Close`
otherwise, and encode never introduces `KeepAlive` on its own); and if
`keepalive_enabled()` is false then after any successful decode followed by
an encode, `keepalive()` is false. -/
theorem keepalive_gating {D E : Type} (cfg : ServiceConfig) (c : Codec D E)
    (h : ReachableCodec cfg c) :
    c.keepalive_enabled = cfg.keep_alive_enabled
    ∧ (c.ctype = ConnectionType.KeepAlive → c.keepalive_enabled = true)
    ∧ (cfg.keep_alive_enabled = false →
        ∀ (dstep : DecoderStep D) (src : Buf) (ops : EncoderOps E)
          (item : Message (Response × BodySize)) (dst : Buf) (x : Request × PayloadType),
          (Codec.decode dstep c src).1 = Except.ok (Option.some x) →
          ((Codec.encode ops ((Codec.decode dstep c src).2.1) item dst).2.1).keepalive
            = false) := by
  have main : c.keepalive_enabled = cfg.keep_alive_enabled
      ∧ (c.ctype = ConnectionType.KeepAlive → c.keepalive_enabled = true) := by
    induction h with
    | new d0 e0 =>
        constructor
        · cases hk : cfg.keep_alive_enabled <;>
            simp [Codec.keepalive_enabled, Codec.new, hk, Flags.empty]
        · intro hka
          exact absurd hka (by simp [Codec.new])
    | decodeStep dstep src hr ih =>
        rename_i c0
        have hpres := (Codec.decode_preserves dstep c0 src).2.2
        constructor
        · show ((Codec.decode dstep c0 src).2.1).flags.keepaliveEnabled = _
          rw [hpres]; exact ih.1
        · intro hka
          show ((Codec.decode dstep c0 src).2.1).flags.keepaliveEnabled = true
          rw [hpres]
          rcases Codec.decode_ctype_gating dstep c0 src hka with h1 | h1
          · exact ih.2 h1
          · exact h1
    | encodeStep ops item dst hr ih =>
        rename_i c0
        have hpres := (Codec.encode_preserves ops c0 item dst).2.1
        constructor
        · show ((Codec.encode ops c0 item dst).2.1).flags.keepaliveEnabled = _
          rw [hpres]; exact ih.1
        · intro hka
          show ((Codec.encode ops c0 item dst).2.1).flags.keepaliveEnabled = true
          rw [hpres]
          exact ih.2 (Codec.encode_ctype_keepalive_mono ops c0 item dst hka)
  refine ⟨main.1, main.2, fun hcfg dstep src ops item dst x hs => ?_⟩
  have hf : c.flags.keepaliveEnabled = false := by
    have : c.keepalive_enabled = false := by rw [main.1, hcfg]
    exact this
  exact Codec.cycle_keepalive_false dstep c src ops item dst x hf hs

/-- A request head that explicitly carries `Connection: keep-alive`. -/
def reqKeepAlive : Request :=
  { method := Method.GET
  , uri := "/".toList
  , version := Version.HTTP11
  , connectionType := ConnectionType.KeepAlive }

/-- A codec whose scripted decoder yields one keep-alive request. -/
def cKAScript : Codec (List (Request × PayloadType)) Nat :=
  Codec.new [(reqKeepAlive, PayloadType.none)] 0 ServiceConfig.default

/-- Witness for C1: a concrete reachable state (default config, one decoded
keep-alive request) whose ctype is `KeepAlive`, at which the theorem yields
`keepalive_enabled() == true`. -/
theorem keepalive_gating_witness :
    ((Codec.decode scriptedDecoder cKAScript []).2.1).ctype = ConnectionType.KeepAlive
    ∧ ((Codec.decode scriptedDecoder cKAScript []).2.1).keepalive_enabled = true :=
  ⟨rfl,
   (keepalive_gating ServiceConfig.default ((Codec.decode scriptedDecoder cKAScript []).2.1)
      (ReachableCodec.decodeStep scriptedDecoder []
        (ReachableCodec.new [(reqKeepAlive, PayloadType.none)] 0))).2.1 rfl⟩

/-- Claim C2 (amended): after every successful `Codec::decode`, the `HEAD`
flag is set if and only if the decoded request's method is HEAD (the flag is
rewritten on each successful decode), while the `STREAM` flag is set if and
only if it was already set or the decoded payload is of the `Stream` variant
— `STREAM` is only ever inserted (`codec.rs` line 112), never cleared, so it
records whether any decoded request so far streamed, not only the most recent
one. -/
theorem head_stream_flags {D E : Type} (dstep : DecoderStep D) (c : Codec D E) (src : Buf)
    (req : Request) (pl : PayloadType) (c2 : Codec D E) (rest : Buf)
    (h : Codec.decode dstep c src = (Except.ok (Option.some (req, pl)), c2, rest)) :
    c2.flags.head = (req.method == Method.HEAD)
    ∧ c2.flags.stream = (c.flags.stream || pl.isStream) := by
  unfold Codec.decode at h
  split at h
  · exact absurd h (by simp)
  · exact absurd h (by simp)
  · rename_i req2 payload2 d2 rest2 heq
    simp only [Prod.mk.injEq, Except.ok.injEq, Option.some.injEq] at h
    obtain ⟨⟨hreq, hpl⟩, hc2, hrest⟩ := h
    subst hreq; subst hpl; subst hc2
    cases hs : payload2.isStream <;> simp [hs]

/-- A codec whose scripted decoder yields a streaming request and then a
request without payload. -/
def cStreamScript : Codec (List (Request × PayloadType)) Nat :=
  Codec.new [(reqPlain, PayloadType.stream PayloadSt.untilClose),
             (reqPlain, PayloadType.none)] 0 ServiceConfig.default

/-- The codec state after the first scripted decode (a `Stream` payload). -/
def cAfterStream : Codec (List (Request × PayloadType)) Nat :=
  (Codec.decode scriptedDecoder cStreamScript []).2.1

/-- The codec state after the second scripted decode (payload `None`). -/
def cAfterNone : Codec (List (Request × PayloadType)) Nat :=
  (Codec.decode scriptedDecoder cAfterStream []).2.1

/-- Witness for the amended C2 at a concrete input: the first scripted decode
sets `STREAM` and leaves `HEAD` cleared. -/
theorem head_stream_flags_witness :
    cAfterStream.flags.head = (reqPlain.method == Method.HEAD)
    ∧ cAfterStream.flags.stream
      = (cStreamScript.flags.stream || (PayloadType.stream PayloadSt.untilClose).isStream) :=
  head_stream_flags scriptedDecoder cStreamScript [] reqPlain
    (PayloadType.stream PayloadSt.untilClose) cAfterStream [] rfl

/-- Counterexample to C2 as stated: after the second successful decode, whose
payload is `None` (not the `Stream` variant), the `STREAM` flag is still set —
so the flag does not reflect only the most recently decoded request. -/
theorem head_stream_flags_cex :
    (Codec.decode scriptedDecoder cAfterStream []).1
      = Except.ok (Option.some (reqPlain, PayloadType.none))
    ∧ PayloadType.none.isStream = false
    ∧ cAfterNone.flags.stream = true :=
  ⟨rfl, rfl, rfl⟩

/-- Claim C4 (amended): scenario S1.  Decoding the first buffer on a default
codec yields the GET /test request with a chunked payload, consuming the
whole buffer; after the second buffer is appended, successive decodes of the
chunked payload decoder produce the chunks "data" and "line" and then EOF;
and the next `Codec::decode` on the same codec yields the pipelined POST
/test2 request with a chunked payload, with no bytes left over — no byte of
the second request is lost across the body boundary. -/
theorem chunked_pipeline_scenario :
    s1D1.1 = Except.ok (Option.some
      ({ method := Method.GET, uri := "/test".toList, version := Version.HTTP11
       , connectionType := ConnectionType.KeepAlive }, PayloadType.payload PayloadSt.chunked))
    ∧ s1D1.2.2 = []
    ∧ s1P1.1 = Except.ok (Option.some (PayloadItem.chunk "data".toList))
    ∧ s1P2.1 = Except.ok (Option.some (PayloadItem.chunk "line".toList))
    ∧ s1P3.1 = Except.ok (Option.some PayloadItem.eof)
    ∧ s1D2.1 = Except.ok (Option.some
      ({ method := Method.POST, uri := "/test2".toList, version := Version.HTTP11
       , connectionType := ConnectionType.KeepAlive }, PayloadType.payload PayloadSt.chunked))
    ∧ s1D2.2.2 = [] :=
  ⟨rfl, rfl, rfl, rfl, rfl, rfl, rfl⟩

/-- Counterexample to C4 as stated: the payload chunks are not produced by
`Codec::decode` itself.  Calling `Codec::decode` on the same codec with the
appended buffer (whose next bytes are the chunk `4\r\ndata\r\n...`) does not
yield the chunk "data" — its item type is a (request, payload) pair and the
chunk-size line fails head parsing, so the call returns a parse error. -/
theorem chunked_pipeline_claim_cex :
    (Codec.decode specDStep s1D1.2.1 (s1D1.2.2 ++ s1Buf2)).1
      = Except.error ParseError.Uri :=
  rfl

/-- The window scan of the ALPN bytes finds `[x, y]` exactly when `[x, y]` is
a contiguous infix of the protocol byte list. -/
theorem windows2_any_iff_infix (x y : Nat) : ∀ l : List Nat,
    ((windows2 l).any (fun w => w == [x, y]) = true) ↔ [x, y] <:+: l
  | [] => by
      constructor
      · intro h; simp [windows2] at h
      · intro h
        have := h.length_le
        simp at this
  | [a] => by
      constructor
      · intro h; simp [windows2] at h
      · intro h
        have := h.length_le
        simp at this
  | a :: b :: rest => by
      have ih := windows2_any_iff_infix x y (b :: rest)
      rw [windows2]
      simp only [List.any_cons, Bool.or_eq_true, beq_iff_eq, ih, List.infix_cons_iff,
        List.cons_prefix_cons, List.cons.injEq, List.nil_prefix, and_true]
      constructor
      · rintro (⟨h1, h2⟩ | h)
        · exact Or.inl ⟨h1.symm, h2.symm⟩
        · exact Or.inr h
      · rintro (⟨h1, h2⟩ | h)
        · exact Or.inl ⟨h1.symm, h2.symm⟩
        · exact Or.inr h

/-- Claim C7: protocol tagging.  For the TLS listeners (the openssl and
rustls arms are the same code), the connection is tagged `Http2` if and only
if the negotiated ALPN bytes contain the two-byte sequence `h2` (bytes 104,
50); when nothing was negotiated or the bytes do not contain `h2` the tag is
`Http1`; and the plain-TCP `tcp()` service always tags `Http1`. -/
theorem alpn_protocol_tagging :
    (∀ l : List Nat, alpnProtocol (Option.some l) = Protocol.http2 ↔ [104, 50] <:+: l)
    ∧ (∀ l : List Nat, alpnProtocol (Option.some l) = Protocol.http1 ↔ ¬ [104, 50] <:+: l)
    ∧ alpnProtocol Option.none = Protocol.http1
    ∧ tcpProtocol = Protocol.http1 := by
  refine ⟨fun l => ?_, fun l => ?_, rfl, rfl⟩
  · rw [← windows2_any_iff_infix]
    unfold alpnProtocol
    by_cases h : (windows2 l).any (fun w => w == [104, 50]) = true <;> simp [h]
  · rw [← windows2_any_iff_infix]
    unfold alpnProtocol
    by_cases h : (windows2 l).any (fun w => w == [104, 50]) = true <;> simp [h]

/-- Claim C6: combined readiness.  Provided no polled sub-service reports an
error, `HttpServiceHandler::poll_ready` returns `Ready(Ok)` exactly when the
expect service, the main service and — when an upgrade service is configured —
the upgrade service all report ready in the same poll, and returns `Pending`
exactly otherwise (backpressure from any sub-service is surfaced); without an
upgrade service only the other two are consulted. -/
theorem combined_readiness {E : Type} (expectP serviceP : SvcPoll E)
    (upgradeP : Option (SvcPoll E))
    (hE : ∀ e, expectP ≠ SvcPoll.readyErr e)
    (hS : ∀ e, serviceP ≠ SvcPoll.readyErr e)
    (hU : ∀ u e, upgradeP = Option.some u → u ≠ SvcPoll.readyErr e) :
    (poll_ready expectP serviceP upgradeP = ReadyOut.ok ↔
      (expectP = SvcPoll.ready ∧ serviceP = SvcPoll.ready
        ∧ ∀ u, upgradeP = Option.some u → u = SvcPoll.ready))
    ∧ (poll_ready expectP serviceP upgradeP = ReadyOut.pending ↔
      ¬(expectP = SvcPoll.ready ∧ serviceP = SvcPoll.ready
        ∧ ∀ u, upgradeP = Option.some u → u = SvcPoll.ready)) := by
  rcases upgradeP with _ | u <;> cases expectP <;> cases serviceP <;>
    first
      | exact absurd rfl (hE _)
      | exact absurd rfl (hS _)
      | (cases u
         · simp [poll_ready, SvcPoll.isReady]
         · simp [poll_ready, SvcPoll.isReady]
         · exact absurd rfl (hU _ _ rfl))
      | simp [poll_ready, SvcPoll.isReady]

/-- Witness for C6 at concrete inputs: with an upgrade service configured and
all three sub-services ready, the combined poll is ready. -/
theorem combined_readiness_witness :
    poll_ready (E := Unit) SvcPoll.ready SvcPoll.ready (Option.some SvcPoll.ready)
      = ReadyOut.ok :=
  (combined_readiness SvcPoll.ready SvcPoll.ready (Option.some SvcPoll.ready)
      (fun _ h => SvcPoll.noConfusion h) (fun _ h => SvcPoll.noConfusion h)
      (fun _ _ hu => by cases hu; exact fun h => SvcPoll.noConfusion h)).1.mpr
    ⟨rfl, rfl, fun _ hu => by cases hu; rfl⟩

/-- Invariant of the pending `HttpServiceResponse` states: once the expect
factory future has been consumed a resolved expect service is stored, and the
upgrade slot (live future or resolved service) tracks exactly whether an
upgrade factory was supplied. -/
def RespInv (hasUpgrade : Bool) (st : HttpServiceResponseState X U) : Prop :=
  (st.futEx = false → st.expect.isSome = true)
  ∧ (st.futUpg || st.upgrade.isSome) = hasUpgrade

theorem pollStepMain_ready_ok {S X U : Type} (st : HttpServiceResponseState X U)
    (pMain : FutPoll S) (st2 : HttpServiceResponseState X U)
    (r : Option (HttpServiceHandler S X U))
    (hex : st.expect.isSome = true)
    (h : pollStepMain st pMain = (st2, ServicePollOut.ready (Except.ok r))) :
    ∃ handler, r = Option.some handler
      ∧ handler.flow.upgrade = st.upgrade ∧ handler.cfg = st.cfg := by
  unfold pollStepMain at h
  cases pMain with
  | pending => exact absurd h (by simp)
  | err => exact absurd h (by simp)
  | ok s =>
      cases hx : st.expect with
      | none => rw [hx] at hex; exact absurd hex (by simp)
      | some x =>
          rw [hx] at h
          simp only [Prod.mk.injEq] at h
          refine ⟨HttpServiceHandler.new st.cfg s x st.upgrade, ?_, rfl, rfl⟩
          have := h.2
          simp only [ServicePollOut.ready.injEq, Except.ok.injEq] at this
          exact this.symm

theorem pollStepMain_pending {S X U : Type} (st : HttpServiceResponseState X U)
    (pMain : FutPoll S) (st2 : HttpServiceResponseState X U)
    (h : pollStepMain st pMain = (st2, ServicePollOut.pending)) : st2 = st := by
  unfold pollStepMain at h
  cases pMain with
  | pending => simp only [Prod.mk.injEq] at h; exact h.1.symm
  | err => exact absurd h (by simp)
  | ok s =>
      cases hx : st.expect <;> rw [hx] at h <;>
        simp only [Prod.mk.injEq] at h <;> exact absurd h.2 (by simp)

theorem pollStepUpg_ready_ok {S X U : Type} (hu : Bool) (st : HttpServiceResponseState X U)
    (pUpg : FutPoll U) (pMain : FutPoll S) (st2 : HttpServiceResponseState X U)
    (r : Option (HttpServiceHandler S X U))
    (hex : st.expect.isSome = true)
    (hupg : (st.futUpg || st.upgrade.isSome) = hu)
    (h : pollStepUpg st pUpg pMain = (st2, ServicePollOut.ready (Except.ok r))) :
    ∃ handler, r = Option.some handler
      ∧ handler.flow.upgrade.isSome = hu ∧ handler.cfg = st.cfg := by
  unfold pollStepUpg at h
  by_cases hf : st.futUpg
  · rw [if_pos hf] at h
    cases pUpg with
    | pending => exact absurd h (by simp)
    | err => exact absurd h (by simp)
    | ok u =>
        dsimp only at h
        obtain ⟨handler, hr, hupd, hcfg⟩ := pollStepMain_ready_ok
          { cfg := st.cfg, futEx := st.futEx, futUpg := false
          , expect := st.expect, upgrade := Option.some u } pMain st2 r hex h
        exact ⟨handler, hr, by simp [hupd, ← hupg, hf], hcfg⟩
  · rw [if_neg hf] at h
    obtain ⟨handler, hr, hupd, hcfg⟩ := pollStepMain_ready_ok st pMain st2 r hex h
    have hf2 : st.futUpg = false := by simpa using hf
    exact ⟨handler, hr, by simp [hupd, ← hupg, hf2], hcfg⟩

theorem pollStepUpg_pending {S X U : Type} (st : HttpServiceResponseState X U)
    (pUpg : FutPoll U) (pMain : FutPoll S) (st2 : HttpServiceResponseState X U)
    (h : pollStepUpg st pUpg pMain = (st2, ServicePollOut.pending)) :
    st2.cfg = st.cfg ∧ st2.expect = st.expect
      ∧ (st2.futUpg || st2.upgrade.isSome) = (st.futUpg || st.upgrade.isSome)
      ∧ st2.futEx = st.futEx := by
  unfold pollStepUpg at h
  by_cases hf : st.futUpg
  · rw [if_pos hf] at h
    cases pUpg with
    | pending =>
        simp only [Prod.mk.injEq] at h
        rw [← h.1]
        exact ⟨rfl, rfl, rfl, rfl⟩
    | err => exact absurd h (by simp)
    | ok u =>
        dsimp only at h
        have := pollStepMain_pending _ pMain st2 h
        rw [this]
        simp [hf]
  · rw [if_neg hf] at h
    have := pollStepMain_pending st pMain st2 h
    rw [this]
    exact ⟨rfl, rfl, rfl, rfl⟩

theorem pollStep_ready_ok {S X U : Type} (hu : Bool) (st : HttpServiceResponseState X U)
    (pEx : FutPoll X) (pUpg : FutPoll U) (pMain : FutPoll S)
    (st2 : HttpServiceResponseState X U) (r : Option (HttpServiceHandler S X U))
    (hinv : RespInv hu st)
    (h : pollStep st pEx pUpg pMain = (st2, ServicePollOut.ready (Except.ok r))) :
    ∃ handler, r = Option.some handler
      ∧ handler.flow.upgrade.isSome = hu ∧ handler.cfg = st.cfg := by
  unfold pollStep at h
  by_cases hf : st.futEx
  · rw [if_pos hf] at h
    cases pEx with
    | pending => exact absurd h (by simp)
    | err => exact absurd h (by simp)
    | ok x =>
        dsimp only at h
        exact pollStepUpg_ready_ok hu
          { cfg := st.cfg, futEx := false, futUpg := st.futUpg
          , expect := Option.some x, upgrade := st.upgrade } pUpg pMain st2 r
          (by simp) (by simpa using hinv.2) h
  · rw [if_neg hf] at h
    have hf2 : st.futEx = false := by simpa using hf
    exact pollStepUpg_ready_ok hu st pUpg pMain st2 r (hinv.1 hf2) hinv.2 h

theorem pollStep_pending_inv {S X U : Type} (hu : Bool) (st : HttpServiceResponseState X U)
    (pEx : FutPoll X) (pUpg : FutPoll U) (pMain : FutPoll S)
    (st2 : HttpServiceResponseState X U)
    (hinv : RespInv hu st)
    (h : pollStep st pEx pUpg pMain = (st2, ServicePollOut.pending)) :
    RespInv hu st2 ∧ st2.cfg = st.cfg := by
  unfold pollStep at h
  by_cases hf : st.futEx
  · rw [if_pos hf] at h
    cases pEx with
    | pending =>
        simp only [Prod.mk.injEq] at h
        rw [← h.1]
        exact ⟨hinv, rfl⟩
    | err => exact absurd h (by simp)
    | ok x =>
        obtain ⟨hcfg, hex, hupg, hfutEx⟩ := pollStepUpg_pending _ pUpg pMain st2 h
        refine ⟨⟨fun _ => ?_, ?_⟩, hcfg⟩
        · rw [hex]; rfl
        · rw [hupg]; simpa using hinv.2
  · rw [if_neg hf] at h
    have hf2 : st.futEx = false := by simpa using hf
    obtain ⟨hcfg, hex, hupg, hfutEx⟩ := pollStepUpg_pending st pUpg pMain st2 h
    refine ⟨⟨fun _ => ?_, ?_⟩, hcfg⟩
    · rw [hex]; exact hinv.1 hf2
    · rw [hupg]; exact hinv.2

theorem runPolls_ready_ok {S X U : Type} (hu : Bool) (cfgc : ServiceConfig) :
    ∀ (polls : List (FutPoll X × FutPoll U × FutPoll S))
      (st st2 : HttpServiceResponseState X U)
      (r : Option (HttpServiceHandler S X U)),
      RespInv hu st → st.cfg = cfgc →
      runPolls st polls = (st2, Option.some (ServicePollOut.ready (Except.ok r))) →
      ∃ handler, r = Option.some handler
        ∧ handler.flow.upgrade.isSome = hu ∧ handler.cfg = cfgc
  | [], st, st2, r, _, _, h => by
      exact absurd h (by simp [runPolls])
  | (pEx, pUpg, pMain) :: rest, st, st2, r, hinv, hcfg, h => by
      rw [runPolls] at h
      rcases hstep : pollStep st pEx pUpg pMain with ⟨stm, out⟩
      rw [hstep] at h
      cases out with
      | pending =>
          obtain ⟨hinv2, hcfg2⟩ := pollStep_pending_inv hu st pEx pUpg pMain stm hinv hstep
          exact runPolls_ready_ok hu cfgc rest stm st2 r hinv2 (hcfg2.trans hcfg) h
      | ready r2 =>
          simp only [Prod.mk.injEq, Option.some.injEq] at h
          have : r2 = Except.ok r := by
            have h2 := h.2
            simp only [ServicePollOut.ready.injEq] at h2
            exact h2
          rw [this] at hstep
          obtain ⟨handler, hr, hup, hc⟩ := pollStep_ready_ok hu st pEx pUpg pMain stm r hinv hstep
          exact ⟨handler, hr, hup, hc.trans hcfg⟩

/-- Claim C8: flow construction invariant.  Whenever the future returned by
`HttpService::new_service` resolves with `Ok` to a handler (modelled as any
run of `HttpServiceResponse::poll` reaching `Ready(Ok)` without the
expect-unwrap panic marker), all factory futures driven by it — main, expect,
and the upgrade factory exactly when one was supplied — have resolved
successfully, the built flow holds a resolved expect service (the `none`
panic marker is impossible), and the flow's upgrade service is `Some` if and
only if an upgrade factory was supplied. -/
theorem flow_construction {S X U : Type} (cfg : ServiceConfig) (hasUpgrade : Bool)
    (polls : List (FutPoll X × FutPoll U × FutPoll S))
    (st2 : HttpServiceResponseState X U)
    (r : Option (HttpServiceHandler S X U))
    (h : runPolls (newServiceState cfg hasUpgrade) polls
          = (st2, Option.some (ServicePollOut.ready (Except.ok r)))) :
    ∃ handler, r = Option.some handler
      ∧ handler.flow.upgrade.isSome = hasUpgrade
      ∧ handler.cfg = cfg := by
  refine runPolls_ready_ok hasUpgrade cfg polls (newServiceState cfg hasUpgrade) st2 r
    ⟨fun hfe => ?_, ?_⟩ rfl h
  · exact absurd hfe (by simp [newServiceState])
  · simp [newServiceState]

/-- Witness for C8 at a concrete run: with an upgrade factory supplied and all
three factories resolving in the first poll, the handler is produced with an
upgrade service present. -/
theorem flow_construction_witness :
    ∃ handler : HttpServiceHandler Unit Unit Unit,
      Option.some (HttpServiceHandler.new ServiceConfig.default () () (Option.some ()))
        = Option.some handler
      ∧ handler.flow.upgrade.isSome = true
      ∧ handler.cfg = ServiceConfig.default :=
  flow_construction ServiceConfig.default true
    [(FutPoll.ok (), FutPoll.ok (), FutPoll.ok ())]
    { cfg := ServiceConfig.default, futEx := false, futUpg := false
    , expect := Option.none, upgrade := Option.none }
    (Option.some (HttpServiceHandler.new ServiceConfig.default () () (Option.some ())))
    rfl
